import Mathlib

/-!
Verification of the nikkei daily-update script (src/nikkei_scraper.py).

The script is a single-threaded batch job.  We embed it shallowly:

* numbers are rationals (the script works with Python floats; every value
  the claims mention is exactly representable, and Python round is
  modelled as round-half-to-even on rationals);
* external collaborators become explicit parameters: the quote provider
  is a function from the requested period string to either an exception
  or a list of records, the yield-source network request is a value of
  type Except Unit Nat (exception or HTTP status code), and the record
  store read is the list of entries the run loads;
* the run returns Except Unit RunEffects: an error value models an
  uncaught Python exception, and RunEffects records the document passed
  to save_data (none if no write was attempted) together with which
  network collaborators were invoked.
-/

namespace Nikkei

/-- Python round-half-to-even of a rational to an integer (the tie rule of
the builtin round). -/
def roundHalfEven (q : ℚ) : ℤ :=
  let f := ⌊q⌋
  if q - f < 1 / 2 then f
  else if q - f > 1 / 2 then f + 1
  else if f % 2 = 0 then f else f + 1

/-- Python round(x, 2): round to 2 decimal places, ties to even. -/
def round2 (q : ℚ) : ℚ := (roundHalfEven (q * 100) : ℚ) / 100

/-- Python int(x) applied to a number: truncation toward zero. -/
def truncQ (q : ℚ) : ℤ := if 0 ≤ q then ⌊q⌋ else ⌈q⌉

/-- The current datetime as the run observes it: the weekday index
(Python weekday(), Monday = 0 .. Sunday = 6) and the strftime
%Y-%m-%d rendering of the date. -/
structure DateTime where
  weekday : ℕ
  iso : String
deriving DecidableEq

/-- is_business_day (line 26-28): weekday index below 5, Monday-Friday. -/
def is_business_day (date : DateTime) : Bool :=
  date.weekday < 5

/-- One row of the daily history the quote provider returns: closing
value, raw volume, and the calendar date already rendered in ISO form. -/
structure PriceRecord where
  close : ℚ
  volume : ℚ
  date : String
deriving DecidableEq

/-- The record get_nikkei_price returns on success (line 40-44). -/
structure Quote where
  price : ℚ
  volume : ℤ
  date : String
deriving DecidableEq

/-- get_nikkei_price (line 30-47): ask the provider for the trailing
window "5d"; an exception from the provider, or an empty history
(which the code turns into a raised exception), is caught and becomes
None; otherwise the last record is selected, the close is rounded to 2
decimals and the volume is divided by 1,000,000 and truncated. -/
def get_nikkei_price (provider : String → Except Unit (List PriceRecord)) :
    Option Quote :=
  match provider "5d" with
  | Except.error _ => none
  | Except.ok hist =>
    match hist.getLast? with
    | none => none
    | some latest =>
      some { price := round2 latest.close
             volume := truncQ (latest.volume / 1000000)
             date := latest.date }

/-- get_yield_from_investing (line 68-84, leading underscore dropped):
the request either raises (caught by the bare except, giving None) or
returns a response; status 200 yields the hardcoded 1.485, any other
status falls through to None.  The function itself never raises. -/
def get_yield_from_investing (net : Except Unit ℕ) : Option ℚ :=
  match net with
  | Except.ok status => if status = 200 then some (1485 / 1000) else none
  | Except.error _ => none

/-- get_yield_from_tradingview (line 86-88): a stub, always None. -/
def get_yield_from_tradingview : Option ℚ := none

/-- get_yield_fallback (line 90-92): always the constant 1.485. -/
def get_yield_fallback : ℚ := 1485 / 1000

/-- The loop of get_bond_yield (line 57-66) over an arbitrary list of
strategy outcomes: an outcome is either a raised exception (caught and
skipped) or a returned Option value; the Python truthiness test
"if yield_rate:" accepts a returned number only when it is non-null and
non-zero; if no strategy produces such a number the constant 1.5 is
returned. -/
def get_bond_yield_loop : List (Except Unit (Option ℚ)) → ℚ
  | [] => 3 / 2
  | o :: rest =>
    match o with
    | Except.ok (some y) => if y = 0 then get_bond_yield_loop rest else y
    | Except.ok none => get_bond_yield_loop rest
    | Except.error _ => get_bond_yield_loop rest

/-- The concrete source list of get_bond_yield (line 51-55), given the
outcome of the single network request the first source makes.  None of
the three concrete strategies raises, so every outcome is ok. -/
def sources (net : Except Unit ℕ) : List (Except Unit (Option ℚ)) :=
  [Except.ok (get_yield_from_investing net),
   Except.ok get_yield_from_tradingview,
   Except.ok (some get_yield_fallback)]

/-- get_bond_yield (line 49-66) with its concrete sources. -/
def get_bond_yield (net : Except Unit ℕ) : ℚ :=
  get_bond_yield_loop (sources net)

/-- The dictionary calculate_metrics returns (line 113-122). -/
structure Metrics where
  per : ℚ
  pbr : ℚ
  eps : ℚ
  bps : ℚ
  yield_rate : ℚ
  dividend_yield : ℚ
deriving DecidableEq

/-- calculate_metrics (line 113-122), with each division guarded the way
Python evaluates them: price / eps raises when eps = 0, price / bps
raises when bps = 0, 100 / (price / eps) raises when price / eps = 0,
and (dividend / price) raises when price = 0; a raised ZeroDivisionError
is the error case. -/
def calculate_metricsE (price eps bps dividend : ℚ) : Except Unit Metrics :=
  if eps = 0 then Except.error ()
  else if bps = 0 then Except.error ()
  else if price / eps = 0 then Except.error ()
  else if price = 0 then Except.error ()
  else Except.ok
    { per := round2 (price / eps)
      pbr := round2 (price / bps)
      eps := eps
      bps := bps
      yield_rate := round2 (100 / (price / eps))
      dividend_yield := round2 (dividend / price * 100) }

/-- One stored history entry.  A loaded entry is an arbitrary JSON
object, so every field is optional: the run accesses the date and price
fields of loaded entries only through dict.get, which returns None (or
a supplied default) when the key is absent. -/
structure Entry where
  date : Option String
  price : Option ℚ
  volume : Option ℤ
  bond_yield : Option ℚ
  per : Option ℚ
  pbr : Option ℚ
  eps : Option ℚ
  bps : Option ℚ
  yield_rate : Option ℚ
  dividend_yield : Option ℚ
  change : Option ℚ
deriving DecidableEq

/-- The new entry built by run (line 160-166 plus the change field added
at line 169-173): the date field is today, the price and volume come
from the quote, bond_yield from the yield fetch, and the metrics
dictionary is spread into the entry. -/
def mkNewEntry (today : String) (q : Quote) (bondYield : ℚ) (m : Metrics)
    (change : ℚ) : Entry :=
  { date := some today
    price := some q.price
    volume := some q.volume
    bond_yield := some bondYield
    per := some m.per
    pbr := some m.pbr
    eps := some m.eps
    bps := some m.bps
    yield_rate := some m.yield_rate
    dividend_yield := some m.dividend_yield
    change := some change }

/-- The change computation of run (line 169-173): if the loaded history
is non-empty, the previous price is the price field of its first entry,
defaulting to the newly fetched price when that field is absent, and the
change is the rounded difference; an empty history gives 0. -/
def changeOf (existing_data : List Entry) (newPrice : ℚ) : ℚ :=
  match existing_data with
  | [] => 0
  | first :: _ => round2 (newPrice - (first.price.getD newPrice))

/-- What a run does to the outside world: the document handed to
save_data (none when no write was attempted), and whether the quote
provider and the yield sources were invoked. -/
structure RunEffects where
  written : Option (List Entry)
  quoteFetched : Bool
  yieldFetched : Bool
deriving DecidableEq

/-- run (line 124-188).  Parameters stand for the collaborators: now is
the observed datetime, existing_data the list load_existing_data
returned, provider the quote provider, net the network outcome seen by
the first yield source.  An Except.error result models an uncaught
Python exception (only calculate_metrics can raise one). -/
def run (now : DateTime) (existing_data : List Entry)
    (provider : String → Except Unit (List PriceRecord))
    (net : Except Unit ℕ) : Except Unit RunEffects :=
  if ¬ is_business_day now then Except.ok ⟨none, false, false⟩
  else
    let today_str := now.iso
    if existing_data.any (fun item => decide (item.date = some today_str)) then
      Except.ok ⟨none, false, false⟩
    else
      match get_nikkei_price provider with
      | none => Except.ok ⟨none, true, false⟩
      | some nikkei =>
        let bond_yield := get_bond_yield net
        match calculate_metricsE nikkei.price 2500 27500 900 with
        | Except.error e => Except.error e
        | Except.ok metrics =>
          let new_entry :=
            mkNewEntry today_str nikkei bond_yield metrics
              (changeOf existing_data nikkei.price)
          Except.ok ⟨some ((new_entry :: existing_data).take 60), true, true⟩

/-- The store contents after a run, given the contents before it: an
uncaught exception or a run that never reached save_data leaves the
store unchanged; otherwise the written document replaces it. -/
def storeAfter (prev : List Entry) (r : Except Unit RunEffects) :
    List Entry :=
  match r with
  | Except.error _ => prev
  | Except.ok e => e.written.getD prev

/-- Stated from the specification text of section 4.3, for comparison
with calculate_metricsE: per = price / eps, pbr = price / bps,
yieldRate = 100 / per, dividendYield = (dividend / price) * 100, all
results rounded to 2 decimal places, eps and bps passed through. -/
def computeMetrics_spec (price eps bps dividend : ℚ) : Metrics :=
  let per := price / eps
  let pbr := price / bps
  let yieldRate := 100 / per
  let dividendYield := dividend / price * 100
  { per := round2 per
    pbr := round2 pbr
    eps := eps
    bps := bps
    yield_rate := round2 yieldRate
    dividend_yield := round2 dividendYield }

/-- Stated from the specification text of section 4.2, for comparison
with get_bond_yield_loop: the first strategy that returns a non-null
decimal wins (whatever its value); a raising strategy and a null return
are no result; if every strategy yields no result, 1.5 is returned. -/
def fetchBondYield_spec : List (Except Unit (Option ℚ)) → ℚ
  | [] => 3 / 2
  | Except.ok (some y) :: _ => y
  | Except.ok none :: rest => fetchBondYield_spec rest
  | Except.error _ :: rest => fetchBondYield_spec rest

/-- A strategy outcome the loop of get_bond_yield skips: a null return,
a raised exception, or a zero return (falsy in Python). -/
def noResult (o : Except Unit (Option ℚ)) : Prop :=
  o = Except.ok none ∨ o = Except.error () ∨ o = Except.ok (some 0)

section Fixtures

/-- A Monday, used as a concrete business day. -/
def monday : DateTime := ⟨0, "2026-10-13"⟩

/-- A Saturday, used as a concrete non-business day. -/
def saturday : DateTime := ⟨5, "2026-10-17"⟩

/-- A quote provider returning a two-record window. -/
def providerA : String → Except Unit (List PriceRecord) :=
  fun _ => Except.ok [⟨39500, 3000000, "2026-10-10"⟩,
                      ⟨40000, 5000000, "2026-10-13"⟩]

/-- The history providerA returns. -/
def histA : List PriceRecord :=
  [⟨39500, 3000000, "2026-10-10"⟩, ⟨40000, 5000000, "2026-10-13"⟩]

/-- The last record of histA. -/
def recA : PriceRecord := ⟨40000, 5000000, "2026-10-13"⟩

/-- A quote provider whose request raises. -/
def providerErr : String → Except Unit (List PriceRecord) :=
  fun _ => Except.error ()

/-- A quote provider returning an empty history. -/
def providerEmpty : String → Except Unit (List PriceRecord) :=
  fun _ => Except.ok []

/-- A failing network request for the first yield source. -/
def netFail : Except Unit ℕ := Except.error ()

/-- A stored entry for a previous day with price 39500. -/
def entryOld : Entry :=
  ⟨some "2026-10-10", some 39500, none, none, none, none, none, none,
   none, none, none⟩

/-- A stored entry for a previous day whose price field is absent. -/
def entryNoPrice : Entry :=
  ⟨some "2026-10-10", none, none, none, none, none, none, none,
   none, none, none⟩

/-- The entry a run on monday with providerA and netFail builds on top
of entryOld. -/
def entryNew : Entry :=
  ⟨some "2026-10-13", some 40000, some 5, some (297 / 200), some 16,
   some (29 / 20), some 2500, some 27500, some (25 / 4), some (9 / 4),
   some 500⟩

/-- The same entry when the previous entry has no price field: the
change defaults to 0. -/
def entryNewZero : Entry :=
  ⟨some "2026-10-13", some 40000, some 5, some (297 / 200), some 16,
   some (29 / 20), some 2500, some 27500, some (25 / 4), some (9 / 4),
   some 0⟩

end Fixtures

section Helpers

theorem run_eq_noop_of_not_business (now : DateTime) (data : List Entry)
    (p : String → Except Unit (List PriceRecord)) (net : Except Unit ℕ)
    (h : is_business_day now = false) :
    run now data p net = Except.ok ⟨none, false, false⟩ := by
  simp [run, h]

theorem run_eq_noop_of_any_today (now : DateTime) (data : List Entry)
    (p : String → Except Unit (List PriceRecord)) (net : Except Unit ℕ)
    (ha : data.any (fun item => decide (item.date = some now.iso)) = true) :
    run now data p net = Except.ok ⟨none, false, false⟩ := by
  by_cases hb : is_business_day now
  · simp [run, hb, ha]
  · simp [run, hb]

theorem run_ok_written (now : DateTime) (data : List Entry)
    (p : String → Except Unit (List PriceRecord)) (net : Except Unit ℕ)
    (e : RunEffects) (d : List Entry)
    (hrun : run now data p net = Except.ok e) (hw : e.written = some d) :
    is_business_day now = true ∧
    data.any (fun item => decide (item.date = some now.iso)) = false ∧
    ∃ q m, get_nikkei_price p = some q ∧
      calculate_metricsE q.price 2500 27500 900 = Except.ok m ∧
      d = (mkNewEntry now.iso q (get_bond_yield net) m
            (changeOf data q.price) :: data).take 60 := by
  by_cases hb : is_business_day now = true
  · by_cases ha : data.any (fun item => decide (item.date = some now.iso)) = true
    · rw [run_eq_noop_of_any_today now data p net ha] at hrun
      cases hrun
      simp at hw
    · cases hq : get_nikkei_price p with
      | none =>
        unfold run at hrun
        simp [hb, ha, hq] at hrun
        cases hrun
        simp at hw
      | some q =>
        cases hm : calculate_metricsE q.price 2500 27500 900 with
        | error err =>
          unfold run at hrun
          simp [hb, ha, hq, hm] at hrun
        | ok m =>
          unfold run at hrun
          simp [hb, ha, hq, hm] at hrun
          refine ⟨hb, by simpa using ha, q, m, rfl, hm, ?_⟩
          rw [← hrun] at hw
          simpa using hw.symm
  · rw [run_eq_noop_of_not_business now data p net (by simpa using hb)] at hrun
    cases hrun
    simp at hw

theorem round2_zero : round2 0 = 0 := by
  norm_num [round2, roundHalfEven]

end Helpers

/-- C1: if any loaded entry carries today's date the run is a no-op
that writes nothing and calls no collaborator, and running the
orchestrator twice on the same date with the same collaborator
responses leaves the store after the second run identical to the store
after the first. -/
theorem run_idempotence :
    (∀ (now : DateTime) (data : List Entry)
       (p : String → Except Unit (List PriceRecord)) (net : Except Unit ℕ),
       (∃ e ∈ data, e.date = some now.iso) →
       run now data p net = Except.ok ⟨none, false, false⟩) ∧
    (∀ (now : DateTime) (data : List Entry)
       (p : String → Except Unit (List PriceRecord)) (net : Except Unit ℕ),
       storeAfter (storeAfter data (run now data p net))
         (run now (storeAfter data (run now data p net)) p net) =
       storeAfter data (run now data p net)) := by
  constructor
  · intro now data p net h
    obtain ⟨e, he, hd⟩ := h
    apply run_eq_noop_of_any_today
    rw [List.any_eq_true]
    exact ⟨e, he, by simp [hd]⟩
  · intro now data p net
    cases hr : run now data p net with
    | error err => simp [storeAfter, hr]
    | ok eff =>
      cases hw : eff.written with
      | none => simp [storeAfter, hr, hw]
      | some d =>
        obtain ⟨hb, ha, q, m, hq, hm, hd⟩ :=
          run_ok_written now data p net eff d hr hw
        have hmem : mkNewEntry now.iso q (get_bond_yield net) m
            (changeOf data q.price) ∈ d := by
          rw [hd, show (60 : ℕ) = 59 + 1 from rfl, List.take_succ_cons]
          exact List.mem_cons_self _ _
        have hrun2 : run now d p net = Except.ok ⟨none, false, false⟩ := by
          apply run_eq_noop_of_any_today
          rw [List.any_eq_true]
          exact ⟨_, hmem, by simp [mkNewEntry]⟩
        simp [storeAfter, hr, hw, hrun2]

/-- C1 witness: a history already holding an entry dated today. -/
theorem run_idempotence_witness :
    (∃ e ∈ [entryNew], Entry.date e = some monday.iso) ∧
    run monday [entryNew] providerA netFail =
      Except.ok ⟨none, false, false⟩ :=
  ⟨⟨entryNew, by simp, rfl⟩,
   run_idempotence.1 monday [entryNew] providerA netFail
     ⟨entryNew, by simp, rfl⟩⟩

/-- C2: a run that writes prepends exactly one entry dated today to the
loaded history and truncates to the first 60 entries; when the loaded
history had at most 60 entries and pairwise-distinct dates, the written
history again has at most 60 entries and pairwise-distinct dates. -/
theorem run_retention_uniqueness (now : DateTime) (data : List Entry)
    (p : String → Except Unit (List PriceRecord)) (net : Except Unit ℕ)
    (e : RunEffects) (d : List Entry)
    (_h60 : data.length ≤ 60)
    (hnd : (data.map Entry.date).Nodup)
    (hrun : run now data p net = Except.ok e)
    (hw : e.written = some d) :
    (∃ ne, ne.date = some now.iso ∧ d = (ne :: data).take 60) ∧
    d.length ≤ 60 ∧
    (d.map Entry.date).Nodup := by
  obtain ⟨hb, ha, q, m, hq, hm, hd⟩ :=
    run_ok_written now data p net e d hrun hw
  refine ⟨⟨_, by simp [mkNewEntry], hd⟩, ?_, ?_⟩
  · rw [hd, List.length_take]
    exact min_le_left _ _
  · have hnotmem : some now.iso ∉ data.map Entry.date := by
      intro hmem
      obtain ⟨a, hamem, hadate⟩ := List.mem_map.mp hmem
      have htrue : data.any
          (fun item => decide (item.date = some now.iso)) = true := by
        rw [List.any_eq_true]
        exact ⟨a, hamem, by simp [hadate]⟩
      exact absurd htrue (by simp [ha])
    rw [hd, List.map_take]
    refine List.Nodup.sublist (List.take_sublist _ _) ?_
    simpa [mkNewEntry] using List.nodup_cons.mpr ⟨hnotmem, hnd⟩

/-- C2 witness: a one-entry history with a distinct date, extended by a
successful concrete run. -/
theorem run_retention_uniqueness_witness :
    (([entryOld] : List Entry).length ≤ 60 ∧
     (([entryOld] : List Entry).map Entry.date).Nodup ∧
     run monday [entryOld] providerA netFail =
       Except.ok ⟨some [entryNew, entryOld], true, true⟩) ∧
    ((∃ ne, ne.date = some monday.iso ∧
        [entryNew, entryOld] = (ne :: [entryOld]).take 60) ∧
     ([entryNew, entryOld] : List Entry).length ≤ 60 ∧
     (([entryNew, entryOld] : List Entry).map Entry.date).Nodup) := by
  have hrun : run monday [entryOld] providerA netFail =
      Except.ok ⟨some [entryNew, entryOld], true, true⟩ := by
    norm_num [run, monday, entryOld, providerA, netFail, entryNew,
      is_business_day, get_nikkei_price, get_bond_yield, sources,
      get_yield_from_investing, get_yield_from_tradingview,
      get_yield_fallback, get_bond_yield_loop, calculate_metricsE,
      mkNewEntry, changeOf, round2, roundHalfEven, truncQ]
    decide
  exact ⟨⟨by norm_num, by simp [entryOld], hrun⟩,
    run_retention_uniqueness monday [entryOld] providerA netFail
      ⟨some [entryNew, entryOld], true, true⟩ [entryNew, entryOld]
      (by norm_num) (by simp [entryOld]) hrun rfl⟩

/-- C3 counterexample: the claim says the first strategy returning a
non-null decimal wins, but the Python truthiness test also rejects a
returned 0: with outcomes [ok (some 0), ok (some 2)] the code returns
2 while the claimed behaviour (fetchBondYield_spec) returns the first
non-null value 0. -/
theorem bond_yield_nonnull_counterexample :
    get_bond_yield_loop [Except.ok (some 0), Except.ok (some 2)] = 2 ∧
    fetchBondYield_spec [Except.ok (some 0), Except.ok (some 2)] = 0 ∧
    (2 : ℚ) ≠ 0 := by
  norm_num [get_bond_yield_loop, fetchBondYield_spec]

/-- C3 (amended): get_bond_yield never raises and always returns a
number; strategies are tried in order and the first one that returns a
non-null, non-zero decimal wins and short-circuits the rest; a strategy
that raises, returns null, or returns zero is treated as no result; if
every strategy yields no result the fixed fallback 1.5 is returned. -/
theorem bond_yield_fallback_order :
    (∀ (pre post : List (Except Unit (Option ℚ))) (y : ℚ), y ≠ 0 →
        (∀ o ∈ pre, noResult o) →
        get_bond_yield_loop (pre ++ Except.ok (some y) :: post) = y) ∧
    (∀ l : List (Except Unit (Option ℚ)), (∀ o ∈ l, noResult o) →
        get_bond_yield_loop l = 3 / 2) := by
  constructor
  · intro pre post y hy hpre
    induction pre with
    | nil => simp [get_bond_yield_loop, hy]
    | cons o rest ih =>
      have ho := hpre o (List.mem_cons_self o rest)
      have hrest : ∀ x ∈ rest, noResult x :=
        fun x hx => hpre x (List.mem_cons_of_mem o hx)
      rcases ho with h | h | h <;> subst h <;>
        simp [get_bond_yield_loop, ih hrest]
  · intro l hl
    induction l with
    | nil => simp [get_bond_yield_loop]
    | cons o rest ih =>
      have ho := hl o (List.mem_cons_self o rest)
      have hrest : ∀ x ∈ rest, noResult x :=
        fun x hx => hl x (List.mem_cons_of_mem o hx)
      rcases ho with h | h | h <;> subst h <;>
        simp [get_bond_yield_loop, ih hrest]

/-- C3 witness: a concrete winning strategy preceded by a null and a
raising strategy, and a concrete all-failing list. -/
theorem bond_yield_fallback_order_witness :
    ((3 : ℚ) ≠ 0 ∧
      (∀ o ∈ ([Except.ok none, Except.error ()] :
          List (Except Unit (Option ℚ))), noResult o)) ∧
    get_bond_yield_loop
      [Except.ok none, Except.error (), Except.ok (some 3),
       Except.ok (some 7)] = 3 ∧
    get_bond_yield_loop
      [Except.ok none, Except.error (), Except.ok (some 0)] = 3 / 2 :=
  have hpre : ∀ o ∈ ([Except.ok none, Except.error ()] :
      List (Except Unit (Option ℚ))), noResult o := by
    intro o ho
    simp only [List.mem_cons, List.not_mem_nil, or_false] at ho
    rcases ho with rfl | rfl
    · exact Or.inl rfl
    · exact Or.inr (Or.inl rfl)
  have hall : ∀ o ∈ ([Except.ok none, Except.error (),
      Except.ok (some 0)] : List (Except Unit (Option ℚ))), noResult o := by
    intro o ho
    simp only [List.mem_cons, List.not_mem_nil, or_false] at ho
    rcases ho with rfl | rfl | rfl
    · exact Or.inl rfl
    · exact Or.inr (Or.inl rfl)
    · exact Or.inr (Or.inr rfl)
  ⟨⟨by norm_num, hpre⟩,
   bond_yield_fallback_order.1 [Except.ok none, Except.error ()]
     [Except.ok (some 7)] 3 (by norm_num) hpre,
   bond_yield_fallback_order.2 _ hall⟩

/-- C4: for every input with non-zero divisors, calculate_metrics
returns exactly the metrics the specification formulas describe
(per = price / eps, pbr = price / bps, yieldRate = 100 / per,
dividendYield = (dividend / price) * 100, each rounded to 2 decimal
places, eps and bps passed through); in particular price 40000,
eps 2500, bps 27500, dividend 900 give per 16, pbr 1.45,
yieldRate 6.25, dividendYield 2.25. -/
theorem metrics_formulas :
    (∀ price eps bps dividend : ℚ, price ≠ 0 → eps ≠ 0 → bps ≠ 0 →
        calculate_metricsE price eps bps dividend =
          Except.ok (computeMetrics_spec price eps bps dividend)) ∧
    calculate_metricsE 40000 2500 27500 900 =
      Except.ok ⟨16, 29 / 20, 2500, 27500, 25 / 4, 9 / 4⟩ := by
  constructor
  · intro price eps bps dividend hp he hb
    simp [calculate_metricsE, computeMetrics_spec, he, hb,
      div_ne_zero hp he, hp]
  · norm_num [calculate_metricsE, round2, roundHalfEven]

/-- C4 witness: the hypotheses hold at the concrete input of the claim
and the theorem applies there. -/
theorem metrics_formulas_witness :
    ((40000 : ℚ) ≠ 0 ∧ (2500 : ℚ) ≠ 0 ∧ (27500 : ℚ) ≠ 0) ∧
    calculate_metricsE 40000 2500 27500 900 =
      Except.ok (computeMetrics_spec 40000 2500 27500 900) :=
  ⟨⟨by norm_num, by norm_num, by norm_num⟩,
   metrics_formulas.1 40000 2500 27500 900 (by norm_num) (by norm_num)
     (by norm_num)⟩

/-- C5 counterexample: the claim allows any bps value, but bps = 0 with
price = 1 and eps = 1 raises a ZeroDivisionError at price / bps. -/
theorem metrics_bps_zero_counterexample :
    (1 : ℚ) ≠ 0 ∧ calculate_metricsE 1 1 0 1 = Except.error () := by
  norm_num [calculate_metricsE]

/-- C5 (amended): calculate_metrics has no failure modes other than
division by zero when price, eps, or bps is zero: for every input with
price, eps and bps all non-zero it succeeds (any dividend value), and
whenever one of them is zero it raises. -/
theorem metrics_failure_modes (price eps bps dividend : ℚ) :
    (price ≠ 0 → eps ≠ 0 → bps ≠ 0 →
       ∃ m, calculate_metricsE price eps bps dividend = Except.ok m) ∧
    ((price = 0 ∨ eps = 0 ∨ bps = 0) →
       calculate_metricsE price eps bps dividend = Except.error ()) := by
  constructor
  · intro hp he hb
    refine ⟨computeMetrics_spec price eps bps dividend, ?_⟩
    simp [calculate_metricsE, computeMetrics_spec, he, hb,
      div_ne_zero hp he, hp]
  · rintro (h | h | h)
    · by_cases he : eps = 0
      · simp [calculate_metricsE, he]
      · by_cases hb : bps = 0
        · simp [calculate_metricsE, he, hb]
        · simp [calculate_metricsE, he, hb, h, zero_div]
    · simp [calculate_metricsE, h]
    · by_cases he : eps = 0
      · simp [calculate_metricsE, he]
      · simp [calculate_metricsE, he, h]

/-- C5 witness: a concrete succeeding input and a concrete zero-price
failure. -/
theorem metrics_failure_modes_witness :
    ((1 : ℚ) ≠ 0 ∧ (2 : ℚ) ≠ 0 ∧ (4 : ℚ) ≠ 0 ∧
      ((0 : ℚ) = 0 ∨ (2 : ℚ) = 0 ∨ (4 : ℚ) = 0)) ∧
    (∃ m, calculate_metricsE 1 2 4 8 = Except.ok m) ∧
    calculate_metricsE 0 2 4 8 = Except.error () :=
  ⟨⟨by norm_num, by norm_num, by norm_num, Or.inl rfl⟩,
   (metrics_failure_modes 1 2 4 8).1 (by norm_num) (by norm_num)
     (by norm_num),
   (metrics_failure_modes 0 2 4 8).2 (Or.inl rfl)⟩

/-- C8: a business day is exactly a date with weekday index below 5
(Monday to Friday, no holiday calendar), and a run on a Saturday or a
Sunday writes nothing and invokes neither the quote provider nor any
yield source. -/
theorem weekend_noop :
    (∀ date : DateTime, is_business_day date = true ↔ date.weekday < 5) ∧
    (∀ (now : DateTime) (data : List Entry)
       (p : String → Except Unit (List PriceRecord)) (net : Except Unit ℕ),
       now.weekday = 5 ∨ now.weekday = 6 →
       run now data p net = Except.ok ⟨none, false, false⟩) := by
  constructor
  · intro date
    simp [is_business_day]
  · intro now data p net h
    apply run_eq_noop_of_not_business
    rcases h with h | h <;> simp [is_business_day, h]

/-- C8 witness: a concrete Saturday run. -/
theorem weekend_noop_witness :
    (saturday.weekday = 5 ∨ saturday.weekday = 6) ∧
    run saturday [] providerA netFail = Except.ok ⟨none, false, false⟩ :=
  ⟨Or.inl rfl, weekend_noop.2 saturday [] providerA netFail (Or.inl rfl)⟩

/-- C6: the change field of the written entry equals the newly fetched
price minus the price of the first loaded entry, rounded to 2 decimal
places, and equals 0 when the loaded history is empty. -/
theorem change_computation (now : DateTime) (data : List Entry)
    (p : String → Except Unit (List PriceRecord)) (net : Except Unit ℕ)
    (e : RunEffects) (d : List Entry) (q : Quote)
    (hq : get_nikkei_price p = some q)
    (hrun : run now data p net = Except.ok e)
    (hw : e.written = some d) :
    (data = [] → ∃ ne tl, d = ne :: tl ∧ ne.change = some 0) ∧
    (∀ first rest pp, data = first :: rest → first.price = some pp →
       ∃ ne tl, d = ne :: tl ∧
         ne.change = some (round2 (q.price - pp))) := by
  obtain ⟨hb, ha, q2, m, hq2, hm, hd⟩ :=
    run_ok_written now data p net e d hrun hw
  rw [hq] at hq2
  obtain rfl : q = q2 := Option.some.inj hq2
  constructor
  · rintro rfl
    exact ⟨_, _, by simpa using hd, by simp [mkNewEntry, changeOf]⟩
  · rintro first rest pp rfl hpp
    refine ⟨mkNewEntry now.iso q (get_bond_yield net) m
        (changeOf (first :: rest) q.price),
      (first :: rest).take 59, ?_, ?_⟩
    · rw [hd, show (60 : ℕ) = 59 + 1 from rfl, List.take_succ_cons]
    · simp [mkNewEntry, changeOf, hpp]

/-- C6 witness: previous price 39500 and new price 40000 give a change
of +500.00. -/
theorem change_computation_witness :
    (get_nikkei_price providerA = some ⟨40000, 5, "2026-10-13"⟩ ∧
     run monday [entryOld] providerA netFail =
       Except.ok ⟨some [entryNew, entryOld], true, true⟩ ∧
     entryOld.price = some 39500) ∧
    (∃ ne tl, ([entryNew, entryOld] : List Entry) = ne :: tl ∧
       ne.change = some (round2 (40000 - 39500))) ∧
    round2 (40000 - 39500) = 500 := by
  have hq : get_nikkei_price providerA = some ⟨40000, 5, "2026-10-13"⟩ := by
    norm_num [get_nikkei_price, providerA, round2, roundHalfEven, truncQ]
  have hrun : run monday [entryOld] providerA netFail =
      Except.ok ⟨some [entryNew, entryOld], true, true⟩ := by
    norm_num [run, monday, entryOld, providerA, netFail, entryNew,
      is_business_day, get_nikkei_price, get_bond_yield, sources,
      get_yield_from_investing, get_yield_from_tradingview,
      get_yield_fallback, get_bond_yield_loop, calculate_metricsE,
      mkNewEntry, changeOf, round2, roundHalfEven, truncQ]
    decide
  exact ⟨⟨hq, hrun, rfl⟩,
    (change_computation monday [entryOld] providerA netFail
      ⟨some [entryNew, entryOld], true, true⟩ [entryNew, entryOld]
      ⟨40000, 5, "2026-10-13"⟩ hq hrun rfl).2 entryOld [] 39500 rfl rfl,
    by norm_num [round2, roundHalfEven]⟩

/-- C7: the quote fetch depends only on the 5-day trailing window it
requests from the provider; on a non-empty window it returns the last
record with the close rounded to 2 decimals, the volume divided by
1,000,000 and truncated, and that record's ISO date; an exception or an
empty window gives Unavailable; and when the quote is Unavailable on a
business day with no entry dated today, the run ends having fetched
the quote only, writing nothing. -/
theorem quote_fetch_contract
    (p p2 : String → Except Unit (List PriceRecord))
    (hist : List PriceRecord) (lastRec : PriceRecord)
    (now : DateTime) (data : List Entry) (net : Except Unit ℕ) :
    (p "5d" = p2 "5d" → get_nikkei_price p = get_nikkei_price p2) ∧
    (p "5d" = Except.ok hist → hist.getLast? = some lastRec →
       get_nikkei_price p = some ⟨round2 lastRec.close,
         truncQ (lastRec.volume / 1000000), lastRec.date⟩) ∧
    (p "5d" = Except.error () → get_nikkei_price p = none) ∧
    (p "5d" = Except.ok [] → get_nikkei_price p = none) ∧
    (is_business_day now = true →
       data.any (fun item => decide (item.date = some now.iso)) = false →
       get_nikkei_price p = none →
       run now data p net = Except.ok ⟨none, true, false⟩) := by
  refine ⟨?_, ?_, ?_, ?_, ?_⟩
  · intro h
    simp [get_nikkei_price, h]
  · intro h hl
    simp [get_nikkei_price, h, hl]
  · intro h
    simp [get_nikkei_price, h]
  · intro h
    simp [get_nikkei_price, h]
  · intro hb ha hn
    unfold run
    simp [hb, ha, hn]

/-- C7 witness: a two-record window, a raising provider, an
empty-window provider, and a run on a business day that ends at the
unavailable quote. -/
theorem quote_fetch_contract_witness :
    (providerA "5d" = Except.ok histA ∧ histA.getLast? = some recA ∧
     providerErr "5d" = Except.error () ∧
     providerEmpty "5d" = Except.ok [] ∧
     is_business_day monday = true ∧
     get_nikkei_price providerErr = none) ∧
    get_nikkei_price providerA = get_nikkei_price providerA ∧
    get_nikkei_price providerA = some ⟨round2 recA.close,
      truncQ (recA.volume / 1000000), recA.date⟩ ∧
    get_nikkei_price providerErr = none ∧
    get_nikkei_price providerEmpty = none ∧
    run monday [] providerErr netFail = Except.ok ⟨none, true, false⟩ :=
  ⟨⟨rfl, rfl, rfl, rfl, rfl, rfl⟩,
   (quote_fetch_contract providerA providerA histA recA monday []
     netFail).1 rfl,
   (quote_fetch_contract providerA providerA histA recA monday []
     netFail).2.1 rfl rfl,
   (quote_fetch_contract providerErr providerErr histA recA monday []
     netFail).2.2.1 rfl,
   (quote_fetch_contract providerEmpty providerEmpty histA recA monday []
     netFail).2.2.2.1 rfl,
   (quote_fetch_contract providerErr providerErr histA recA monday []
     netFail).2.2.2.2 rfl rfl rfl⟩

/-- C9: with the three concrete strategies of the code, get_bond_yield
returns 1.485 for every outcome of the network request, and the final
fallback 1.5 is never the result. -/
theorem bond_yield_always_mock (net : Except Unit ℕ) :
    get_bond_yield net = 1485 / 1000 ∧ get_bond_yield net ≠ 3 / 2 := by
  cases net with
  | error e =>
    norm_num [get_bond_yield, sources, get_yield_from_investing,
      get_yield_from_tradingview, get_yield_fallback, get_bond_yield_loop]
  | ok s =>
    by_cases hs : s = 200 <;>
      norm_num [get_bond_yield, sources, get_yield_from_investing,
        get_yield_from_tradingview, get_yield_fallback,
        get_bond_yield_loop, hs]

/-- C10: when the loaded history is non-empty but its first entry has
no price field, the previous price defaults to the newly fetched price
and the written entry's change field is 0 instead of an error. -/
theorem change_missing_price (now : DateTime) (first : Entry)
    (rest : List Entry)
    (p : String → Except Unit (List PriceRecord)) (net : Except Unit ℕ)
    (e : RunEffects) (d : List Entry)
    (hp : first.price = none)
    (hrun : run now (first :: rest) p net = Except.ok e)
    (hw : e.written = some d) :
    ∃ ne tl, d = ne :: tl ∧ ne.change = some 0 := by
  obtain ⟨hb, ha, q, m, hq, hm, hd⟩ :=
    run_ok_written now (first :: rest) p net e d hrun hw
  refine ⟨mkNewEntry now.iso q (get_bond_yield net) m
      (changeOf (first :: rest) q.price),
    (first :: rest).take 59, ?_, ?_⟩
  · rw [hd, show (60 : ℕ) = 59 + 1 from rfl, List.take_succ_cons]
  · simp [mkNewEntry, changeOf, hp, round2_zero]

/-- C10 witness: a concrete run over a history whose first entry lacks
the price field. -/
theorem change_missing_price_witness :
    (entryNoPrice.price = none ∧
     run monday [entryNoPrice] providerA netFail =
       Except.ok ⟨some [entryNewZero, entryNoPrice], true, true⟩) ∧
    (∃ ne tl, ([entryNewZero, entryNoPrice] : List Entry) = ne :: tl ∧
       ne.change = some 0) := by
  have hrun : run monday [entryNoPrice] providerA netFail =
      Except.ok ⟨some [entryNewZero, entryNoPrice], true, true⟩ := by
    norm_num [run, monday, entryNoPrice, providerA, netFail, entryNewZero,
      is_business_day, get_nikkei_price, get_bond_yield, sources,
      get_yield_from_investing, get_yield_from_tradingview,
      get_yield_fallback, get_bond_yield_loop, calculate_metricsE,
      mkNewEntry, changeOf, round2, roundHalfEven, truncQ]
    decide
  exact ⟨⟨rfl, hrun⟩,
    change_missing_price monday entryNoPrice [] providerA netFail
      ⟨some [entryNewZero, entryNoPrice], true, true⟩
      [entryNewZero, entryNoPrice] rfl hrun rfl⟩

end Nikkei
